import Mathlib

/-!
# Verification of the multi-crop tiling planner of `data_augment.py`

This file gives a shallow embedding of the tiling computation performed by
`multi_crop_local_images` in `src/data_augment.py` (lines 161-188) and proves
properties of it.

The Python code, per image of width `w` and height `h` and a caller-supplied
`target_size`, does:

* skip the image when `target_size > h` and `target_size > w` (line 165);
* `crop_cols = int(np.rint(w / target_size)) if w / target_size > 1 else 0`
  (line 169), and the same for `crop_rows` with `h` (line 170);
* `width_step = int((w - target_size) / crop_cols) if crop_cols != 0 else 0`
  (line 173), and the same for `height_step` with `h` (line 174);
* nested loops `for i in range(crop_cols + 1): for j in range(crop_rows + 1)`
  emitting, per `(i, j)`, an output named with index `2*i + j` and the crop
  box `(i*width_step, j*height_step, i*width_step + target_size,
  j*height_step + target_size)` (lines 177-187).

On floating point: the Python code computes `np.rint(w / target_size)` with
IEEE double division.  We model it by exact rational arithmetic with
round-half-to-even, which is what `np.rint` performs on the exact ratio.  For
the integer magnitudes of image dimensions (far below 2^40) the double
division `w / t` is a half-integer exactly when the rational `w / t` is one
(half-integers in this range are exactly representable, and a quotient closer
than one unit in the last place to a representable half-integer must equal
it), so tie behaviour and comparisons such as `w / t > 1` agree with the
rational model.  Likewise `int((w - t) / c)` equals floored natural division
since `w > t` whenever `c != 0`.
-/

namespace EarthView

/-- Nearest-integer rounding of the ratio `w / t`, ties to the even
neighbour: models `int(np.rint(w / t))` of `data_augment.py` lines 169-170
(see the module docstring for the floating-point discussion). -/
def rintDiv (w t : ℕ) : ℕ :=
  if 2 * (w % t) < t then w / t
  else if t < 2 * (w % t) then w / t + 1
  else if (w / t) % 2 = 0 then w / t else w / t + 1

/-- `crop_cols` (for `axis = w`) / `crop_rows` (for `axis = h`) of
`data_augment.py` lines 169-170: the rounded ratio when `axis / t > 1`
(which, for positive `t`, is `t < axis`), otherwise `0`. -/
def cropCount (axis t : ℕ) : ℕ :=
  if t < axis then rintDiv axis t else 0

/-- `width_step` / `height_step` of `data_augment.py` lines 173-174:
`int((axis - t) / cropCount)` with the division guarded by
`cropCount != 0`.  When `cropCount` is nonzero we have `t < axis`, so the
Python float division of nonnegative numbers truncated by `int` is the
floored natural division. -/
def stepSize (axis t : ℕ) : ℕ :=
  if cropCount axis t ≠ 0 then (axis - t) / cropCount axis t else 0

/-- One crop rectangle as emitted by the loop body, `data_augment.py`
lines 177-187: the naming index `2*i + j` (line 180) and the PIL crop box
(lines 186-187). -/
structure CropRect where
  index : ℕ
  left : ℕ
  top : ℕ
  right : ℕ
  bottom : ℕ
  deriving DecidableEq

/-- The loop body of `data_augment.py` lines 177-187: the rectangle emitted
for grid position `(i, j)`. -/
def rectAt (w h t i j : ℕ) : CropRect :=
  { index := 2 * i + j
    left := i * stepSize w t
    top := j * stepSize h t
    right := i * stepSize w t + t
    bottom := j * stepSize h t + t }

/-- The full tiling plan of one image: the skip test of line 165 followed by
the nested loops of lines 177-187, columns outer and rows inner. -/
def plan (w h t : ℕ) : List CropRect :=
  if t > w ∧ t > h then []
  else
    (List.range (cropCount w t + 1)).flatMap fun i =>
      (List.range (cropCount h t + 1)).map fun j => rectAt w h t i j

/-- Natural division that signals Python's `ZeroDivisionError` as `none`. -/
def checkedDiv (a b : ℕ) : Option ℕ :=
  if b = 0 then none else some (a / b)

/-- The step computation of lines 173-174 with the division-by-zero failure
made explicit: `none` exactly when Python would raise. -/
def stepSizeChecked (axis t : ℕ) : Option ℕ :=
  if cropCount axis t ≠ 0 then checkedDiv (axis - t) (cropCount axis t)
  else some 0

/-- The whole planning computation with every possible raise made explicit:
the ratio divisions of lines 169-170 fail when `t = 0`, and the step
divisions of lines 173-174 fail when evaluated with a zero count. -/
def planChecked (w h t : ℕ) : Option (List CropRect) :=
  if t = 0 then none
  else if t > w ∧ t > h then some []
  else do
    let ws ← stepSizeChecked w t
    let hs ← stepSizeChecked h t
    some ((List.range (cropCount w t + 1)).flatMap fun i =>
      (List.range (cropCount h t + 1)).map fun j =>
        { index := 2 * i + j
          left := i * ws
          top := j * hs
          right := i * ws + t
          bottom := j * hs + t })

/-! ## Helper lemmas -/

/-- `rintDiv w t` is a nearest integer to the ratio `w / t`: the rounded
value multiplied back by `t` differs from `w` by at most `t / 2` on either
side. -/
lemma rintDiv_nearest (w t : ℕ) (ht : 0 < t) :
    2 * w ≤ 2 * (rintDiv w t * t) + t ∧ 2 * (rintDiv w t * t) ≤ 2 * w + t := by
  have hmod : w % t < t := Nat.mod_lt w ht
  have hdm : w / t * t + w % t = w := by
    rw [Nat.mul_comm]; exact Nat.div_add_mod w t
  have hsucc : (w / t + 1) * t = w / t * t + t := by rw [add_mul, one_mul]
  unfold rintDiv
  split_ifs with hc1 hc2 hc3 <;> omega

lemma rintDiv_pos (w t : ℕ) (ht : 0 < t) (h : t ≤ w) : 0 < rintDiv w t := by
  have hq : 0 < w / t := Nat.div_pos h ht
  unfold rintDiv
  split_ifs <;> omega

lemma cropCount_pos (axis t : ℕ) (ht : 0 < t) (h : t < axis) :
    0 < cropCount axis t := by
  unfold cropCount
  rw [if_pos h]
  exact rintDiv_pos axis t ht (le_of_lt h)

lemma cropCount_eq_zero (axis t : ℕ) (h : axis ≤ t) : cropCount axis t = 0 := by
  unfold cropCount
  rw [if_neg (by omega)]

lemma cropCount_eq_rintDiv (axis t : ℕ) (h : t < axis) :
    cropCount axis t = rintDiv axis t := by
  unfold cropCount
  rw [if_pos h]

lemma stepSize_eq (axis t : ℕ) (h : cropCount axis t ≠ 0) :
    stepSize axis t = (axis - t) / cropCount axis t := by
  unfold stepSize
  rw [if_pos h]

lemma stepSize_of_cropCount_eq_zero (axis t : ℕ) (h : cropCount axis t = 0) :
    stepSize axis t = 0 := by
  unfold stepSize
  rw [h]
  simp

/-- The tiles along one axis never run past the end by more than the residual
flooring gap: `count * step + t ≤ axis` whenever the axis is subdivided. -/
lemma cropCount_mul_stepSize_le (axis t : ℕ) (hc : cropCount axis t ≠ 0) :
    cropCount axis t * stepSize axis t + t ≤ axis := by
  have htl : t < axis := by
    by_contra hle
    exact hc (cropCount_eq_zero axis t (by omega))
  rw [stepSize_eq axis t hc]
  have h1 := Nat.mul_div_le (axis - t) (cropCount axis t)
  omega

/-- The right (resp. bottom) edge of every tile stays inside the axis, as
long as the axis is at least the target size. -/
lemma tile_end_le (axis t i : ℕ) (hta : t ≤ axis) (hi : i ≤ cropCount axis t) :
    i * stepSize axis t + t ≤ axis := by
  by_cases hc : cropCount axis t = 0
  · have hi0 : i = 0 := by omega
    subst hi0
    simpa using hta
  · have h1 : i * stepSize axis t ≤ cropCount axis t * stepSize axis t :=
      Nat.mul_le_mul_right _ hi
    have h2 := cropCount_mul_stepSize_le axis t hc
    omega

lemma length_flatMap_range {α : Type} (f : ℕ → ℕ → α) (n m : ℕ) :
    ((List.range n).flatMap fun i => (List.range m).map (f i)).length = n * m := by
  induction n with
  | zero => simp
  | succ k ih =>
    rw [List.range_succ, List.flatMap_append]
    simp only [List.length_append, ih, List.flatMap_cons, List.flatMap_nil,
      List.append_nil, List.length_map, List.length_range, Nat.succ_mul]

lemma getElem?_flatMap_range {α : Type} :
    ∀ (n : ℕ) (f : ℕ → ℕ → α) (m i j : ℕ), i < n → j < m →
      ((List.range n).flatMap fun a => (List.range m).map (f a))[i * m + j]? =
        some (f i j) := by
  intro n
  induction n with
  | zero => intro f m i j hi hj; omega
  | succ k ih =>
    intro f m i j hi hj
    rw [List.range_succ_eq_map, List.flatMap_cons, List.flatMap_map]
    cases i with
    | zero =>
      have hidx : 0 * m + j = j := by omega
      rw [hidx, List.getElem?_append_left (by simpa using hj)]
      simp [List.getElem?_range hj]
    | succ i' =>
      have hlen : ((List.range m).map (f 0)).length = m := by simp
      have hge : ((List.range m).map (f 0)).length ≤ (i' + 1) * m + j := by
        rw [hlen, Nat.succ_mul]
        omega
      rw [List.getElem?_append_right hge, hlen]
      have hidx : (i' + 1) * m + j - m = i' * m + j := by
        rw [Nat.succ_mul]
        omega
      rw [hidx]
      exact ih (fun a => f (a + 1)) m i' j (by omega) hj

lemma stepSizeChecked_eq (axis t : ℕ) :
    stepSizeChecked axis t = some (stepSize axis t) := by
  unfold stepSizeChecked stepSize checkedDiv
  split_ifs <;> simp_all

/-! ## Claim theorems -/

/-- C1: for each axis independently, with positive sizes: if the axis-to-target
ratio is at most 1 (for positive `t`, `axis ≤ t`) the crop count and step are
both 0; otherwise the crop count is the nearest-integer rounding of the ratio
(witnessed by the two-sided bound `|axis - count * t| ≤ t / 2`) and the step is
the floored quotient `(axis - t) / count`. -/
theorem c1_axis_counts (axis t : ℕ) (ht : 0 < t) :
    (axis ≤ t → cropCount axis t = 0 ∧ stepSize axis t = 0) ∧
    (t < axis →
      cropCount axis t = rintDiv axis t ∧
      2 * axis ≤ 2 * (rintDiv axis t * t) + t ∧
      2 * (rintDiv axis t * t) ≤ 2 * axis + t ∧
      stepSize axis t = (axis - t) / rintDiv axis t) := by
  constructor
  · intro hle
    have hc := cropCount_eq_zero axis t hle
    exact ⟨hc, stepSize_of_cropCount_eq_zero axis t hc⟩
  · intro hlt
    have hc := cropCount_eq_rintDiv axis t hlt
    have hpos : 0 < rintDiv axis t := rintDiv_pos axis t ht (le_of_lt hlt)
    refine ⟨hc, (rintDiv_nearest axis t ht).1, (rintDiv_nearest axis t ht).2, ?_⟩
    rw [stepSize_eq axis t (by omega), hc]

/-- Witness for C1 at `axis = 1800`, `t = 1024`. -/
theorem c1_witness :
    cropCount 1800 1024 = rintDiv 1800 1024 ∧
    2 * 1800 ≤ 2 * (rintDiv 1800 1024 * 1024) + 1024 ∧
    2 * (rintDiv 1800 1024 * 1024) ≤ 2 * 1800 + 1024 ∧
    stepSize 1800 1024 = (1800 - 1024) / rintDiv 1800 1024 :=
  (c1_axis_counts 1800 1024 (by decide)).2 (by decide)

/-- C2 counterexample: the claim quantifies over every input with a non-empty
output, but for `w = 100`, `h = 2000`, `t = 1024` the image is not skipped
(the target fits the height), the width axis gets `crop_cols = 0`, and every
emitted rectangle has `right = 1024 > 100 = width`: the rectangles leave the
image horizontally. -/
theorem c2_counterexample :
    plan 100 2000 1024 ≠ [] ∧
    ¬ (∀ r ∈ plan 100 2000 1024, r.right ≤ 100 ∧ r.bottom ≤ 2000) := by decide

/-- C2 amended: containment holds for every rectangle provided the target size
fits *both* axes (`t ≤ w` and `t ≤ h`), not merely when the output is
non-empty. -/
theorem c2_amended (w h t : ℕ) (ht : 0 < t) (hw : t ≤ w) (hh : t ≤ h) :
    ∀ r ∈ plan w h t,
      r.left + t = r.right ∧ r.top + t = r.bottom ∧
      r.right - r.left = t ∧ r.bottom - r.top = t ∧
      r.right ≤ w ∧ r.bottom ≤ h := by
  intro r hr
  have hsk : ¬ (t > w ∧ t > h) := by omega
  unfold plan at hr
  rw [if_neg hsk] at hr
  simp only [List.mem_flatMap, List.mem_map, List.mem_range] at hr
  obtain ⟨i, hi, j, hj, rfl⟩ := hr
  unfold rectAt
  dsimp only
  refine ⟨rfl, rfl, by omega, by omega, ?_, ?_⟩
  · exact tile_end_le w t i hw (by omega)
  · exact tile_end_le h t j hh (by omega)

/-- Witness for C2 (amended) at `w = 1800`, `h = 1200`, `t = 1024` and the
first emitted rectangle. -/
theorem c2_witness :
    (0 : ℕ) < 1024 ∧ (1024 : ℕ) ≤ 1800 ∧ (1024 : ℕ) ≤ 1200 ∧
    CropRect.mk 0 0 0 1024 1024 ∈ plan 1800 1200 1024 ∧
    ((CropRect.mk 0 0 0 1024 1024).left + 1024 = (CropRect.mk 0 0 0 1024 1024).right ∧
     (CropRect.mk 0 0 0 1024 1024).top + 1024 = (CropRect.mk 0 0 0 1024 1024).bottom ∧
     (CropRect.mk 0 0 0 1024 1024).right - (CropRect.mk 0 0 0 1024 1024).left = 1024 ∧
     (CropRect.mk 0 0 0 1024 1024).bottom - (CropRect.mk 0 0 0 1024 1024).top = 1024 ∧
     (CropRect.mk 0 0 0 1024 1024).right ≤ 1800 ∧
     (CropRect.mk 0 0 0 1024 1024).bottom ≤ 1200) :=
  ⟨by decide, by decide, by decide, by decide,
   c2_amended 1800 1200 1024 (by decide) (by decide) (by decide) _ (by decide)⟩

/-- C3: whenever the image is not skipped, the plan has exactly
`(crop_cols + 1) * (crop_rows + 1)` rectangles, and the rectangle at list
position `i * (crop_rows + 1) + j` (columns outer, rows inner) is the one the
source loop body builds for `(i, j)`: index `2*i + j`, `left = i * width_step`,
`top = j * height_step`, `right = left + t`, `bottom = top + t`. -/
theorem c3_enumeration (w h t : ℕ) (hwh : t ≤ w ∨ t ≤ h) :
    (plan w h t).length = (cropCount w t + 1) * (cropCount h t + 1) ∧
    ∀ i j, i ≤ cropCount w t → j ≤ cropCount h t →
      (plan w h t)[i * (cropCount h t + 1) + j]? =
        some { index := 2 * i + j
               left := i * stepSize w t
               top := j * stepSize h t
               right := i * stepSize w t + t
               bottom := j * stepSize h t + t } := by
  have hsk : ¬ (t > w ∧ t > h) := by omega
  constructor
  · unfold plan
    rw [if_neg hsk]
    exact length_flatMap_range (rectAt w h t) (cropCount w t + 1) (cropCount h t + 1)
  · intro i j hi hj
    unfold plan
    rw [if_neg hsk]
    exact getElem?_flatMap_range (cropCount w t + 1) (rectAt w h t)
      (cropCount h t + 1) i j (by omega) (by omega)

/-- Witness for C3 at `w = 1800`, `h = 1200`, `t = 1024`, position
`(i, j) = (2, 1)`. -/
theorem c3_witness :
    ((1024 : ℕ) ≤ 1800 ∨ (1024 : ℕ) ≤ 1200) ∧
    (plan 1800 1200 1024).length = (cropCount 1800 1024 + 1) * (cropCount 1200 1024 + 1) ∧
    (plan 1800 1200 1024)[2 * (cropCount 1200 1024 + 1) + 1]? =
      some { index := 2 * 2 + 1
             left := 2 * stepSize 1800 1024
             top := 1 * stepSize 1200 1024
             right := 2 * stepSize 1800 1024 + 1024
             bottom := 1 * stepSize 1200 1024 + 1024 } :=
  ⟨Or.inl (by decide), (c3_enumeration 1800 1200 1024 (Or.inl (by decide))).1,
   (c3_enumeration 1800 1200 1024 (Or.inl (by decide))).2 2 1 (by decide) (by decide)⟩

/-- C4: for positive sizes, the plan is empty exactly when the target size
exceeds both the width and the height. -/
theorem c4_empty_iff (w h t : ℕ) (_hw : 0 < w) (_hh : 0 < h) (_ht : 0 < t) :
    plan w h t = [] ↔ (t > w ∧ t > h) := by
  unfold plan
  by_cases hsk : t > w ∧ t > h
  · simp [hsk]
  · rw [if_neg hsk]
    constructor
    · intro hnil
      have hlen := congrArg List.length hnil
      rw [length_flatMap_range (rectAt w h t) (cropCount w t + 1) (cropCount h t + 1)]
        at hlen
      simp at hlen
    · intro hcontra
      exact absurd hcontra hsk

/-- Witness for C4 at `w = 100`, `h = 90`, `t = 1024` (both sides smaller than
the target, so the plan is empty). -/
theorem c4_witness :
    (0 : ℕ) < 100 ∧ (0 : ℕ) < 90 ∧ (0 : ℕ) < 1024 ∧
    (plan 100 90 1024 = [] ↔ (1024 > 100 ∧ 1024 > 90)) :=
  ⟨by decide, by decide, by decide,
   c4_empty_iff 100 90 1024 (by decide) (by decide) (by decide)⟩

/-- C5 counterexample: for `axis = 1801`, `t = 1024` the axis is subdivided
(`crop_count = 2`, `step = floor(777 / 2) = 388`), but the last tile ends at
`2 * 388 + 1024 = 1800`, one pixel short of the axis size `1801`: the claimed
equality `crop_count * step + target = axis` fails whenever the count does not
divide `axis - target`. -/
theorem c5_counterexample :
    1024 < 1801 ∧ 0 < cropCount 1801 1024 ∧
    cropCount 1801 1024 * stepSize 1801 1024 + 1024 ≠ 1801 := by decide

/-- C5 amended: on a subdivided axis the first tile starts at offset 0 and the
last tile ends within `crop_count` pixels of the image edge:
`crop_count * step + target ≤ axis < crop_count * step + target + crop_count`,
with equality at the edge exactly when `crop_count` divides `axis - target`. -/
theorem c5_amended (axis t : ℕ) (ht : 0 < t) (h : t < axis) :
    0 < cropCount axis t ∧
    cropCount axis t * stepSize axis t + t ≤ axis ∧
    axis < cropCount axis t * stepSize axis t + t + cropCount axis t ∧
    (cropCount axis t * stepSize axis t + t = axis ↔
      (axis - t) % cropCount axis t = 0) := by
  have hc := cropCount_pos axis t ht h
  have hcne : cropCount axis t ≠ 0 := by omega
  have hstep := stepSize_eq axis t hcne
  have hdm : cropCount axis t * ((axis - t) / cropCount axis t) +
      (axis - t) % cropCount axis t = axis - t :=
    Nat.div_add_mod (axis - t) (cropCount axis t)
  have hmod : (axis - t) % cropCount axis t < cropCount axis t :=
    Nat.mod_lt _ hc
  rw [hstep]
  omega

/-- Witness for C5 (amended) at `axis = 1800`, `t = 1024`, where the edge is
reached exactly. -/
theorem c5_witness :
    (0 : ℕ) < 1024 ∧ (1024 : ℕ) < 1800 ∧
    (0 < cropCount 1800 1024 ∧
     cropCount 1800 1024 * stepSize 1800 1024 + 1024 ≤ 1800 ∧
     1800 < cropCount 1800 1024 * stepSize 1800 1024 + 1024 + cropCount 1800 1024 ∧
     (cropCount 1800 1024 * stepSize 1800 1024 + 1024 = 1800 ↔
       (1800 - 1024) % cropCount 1800 1024 = 0)) :=
  ⟨by decide, by decide, c5_amended 1800 1024 (by decide) (by decide)⟩

/-- C6: the naming index is `2*i + j` (both aliasing positions produce it) and
it is not injective once `crop_rows ≥ 2`: for `w = 1800`, `h = 2048`,
`t = 1024` (`crop_cols = 2`, `crop_rows = 2`), grid positions `(1, 0)` and
`(0, 2)` yield two distinct rectangles that share index `2`. -/
theorem c6_index_collision :
    cropCount 2048 1024 = 2 ∧
    (plan 1800 2048 1024)[1 * (cropCount 2048 1024 + 1) + 0]? =
      some (rectAt 1800 2048 1024 1 0) ∧
    (plan 1800 2048 1024)[0 * (cropCount 2048 1024 + 1) + 2]? =
      some (rectAt 1800 2048 1024 0 2) ∧
    (rectAt 1800 2048 1024 1 0).index = 2 * 1 + 0 ∧
    (rectAt 1800 2048 1024 0 2).index = 2 * 0 + 2 ∧
    2 * 1 + 0 = 2 * 0 + 2 ∧
    rectAt 1800 2048 1024 1 0 ≠ rectAt 1800 2048 1024 0 2 := by decide

/-- C7: the concrete case `w = 1800`, `h = 1200`, `t = 1024`: two extra
columns with step 388, one extra row with step 176, and exactly the six
rectangles with lefts 0, 388, 776 and tops 0, 176, in column-outer order. -/
theorem c7_concrete :
    cropCount 1800 1024 = 2 ∧ stepSize 1800 1024 = 388 ∧
    cropCount 1200 1024 = 1 ∧ stepSize 1200 1024 = 176 ∧
    plan 1800 1200 1024 =
      [⟨0, 0, 0, 1024, 1024⟩, ⟨1, 0, 176, 1024, 1200⟩,
       ⟨2, 388, 0, 1412, 1024⟩, ⟨3, 388, 176, 1412, 1200⟩,
       ⟨4, 776, 0, 1800, 1024⟩, ⟨5, 776, 176, 1800, 1200⟩] ∧
    (plan 1800 1200 1024).map CropRect.left = [0, 0, 388, 388, 776, 776] ∧
    (plan 1800 1200 1024).map CropRect.top = [0, 176, 0, 176, 0, 176] := by decide

/-- C8: for positive target size the planning computation is total: the
explicitly-checked evaluation (every possible Python raise returned as `none`)
always succeeds and agrees with the plan, and when a crop count is zero the
corresponding step is forced to zero instead of evaluating the division. -/
theorem c8_no_raise (w h t : ℕ) (ht : 0 < t) :
    planChecked w h t = some (plan w h t) ∧
    (cropCount w t = 0 → stepSize w t = 0) ∧
    (cropCount h t = 0 → stepSize h t = 0) := by
  refine ⟨?_, stepSize_of_cropCount_eq_zero w t, stepSize_of_cropCount_eq_zero h t⟩
  unfold planChecked plan
  rw [if_neg (by omega : ¬ t = 0)]
  by_cases hsk : t > w ∧ t > h
  · rw [if_pos hsk, if_pos hsk]
  · rw [if_neg hsk, if_neg hsk, stepSizeChecked_eq, stepSizeChecked_eq]
    rfl

/-- Witness for C8 at `t = 1024` with a normal image and with a degenerate
one (`100 × 100`, skipped, whose width axis has crop count zero). -/
theorem c8_witness :
    (0 : ℕ) < 1024 ∧
    planChecked 1800 1200 1024 = some (plan 1800 1200 1024) ∧
    stepSize 100 1024 = 0 :=
  ⟨by decide, (c8_no_raise 1800 1200 1024 (by decide)).1,
   (c8_no_raise 100 100 1024 (by decide)).2.1 (by decide)⟩

/-- C9 (implicit): on a subdivided axis the step is strictly smaller than the
target size, so consecutive tiles overlap (or abut) and the tile projections
cover the whole interval `[0, crop_count * step + target)` with no interior
gap: every point below the last tile's end lies inside some tile. -/
theorem c9_step_lt_target (axis t : ℕ) (ht : 0 < t) (h : t < axis) :
    stepSize axis t < t ∧
    ∀ x, x < cropCount axis t * stepSize axis t + t →
      ∃ k, k ≤ cropCount axis t ∧ k * stepSize axis t ≤ x ∧
        x < k * stepSize axis t + t := by
  have hc := cropCount_pos axis t ht h
  have hcne : cropCount axis t ≠ 0 := by omega
  have hcc := cropCount_eq_rintDiv axis t h
  have hnear := (rintDiv_nearest axis t ht).1
  have haxis : axis < cropCount axis t * t + t := by rw [hcc]; omega
  have hcomm : cropCount axis t * t = t * cropCount axis t := Nat.mul_comm _ _
  have hstep : stepSize axis t < t := by
    rw [stepSize_eq axis t hcne, Nat.div_lt_iff_lt_mul hc]
    omega
  refine ⟨hstep, ?_⟩
  intro x hx
  by_cases hs0 : stepSize axis t = 0
  · refine ⟨0, Nat.zero_le _, by simp, ?_⟩
    simp only [Nat.zero_mul, Nat.zero_add]
    simp only [hs0, Nat.mul_zero, Nat.zero_add] at hx
    exact hx
  · have hspos : 0 < stepSize axis t := Nat.pos_of_ne_zero hs0
    have hdm : stepSize axis t * (x / stepSize axis t) + x % stepSize axis t = x :=
      Nat.div_add_mod x (stepSize axis t)
    have hmlt : x % stepSize axis t < stepSize axis t := Nat.mod_lt x hspos
    have hco : x / stepSize axis t * stepSize axis t =
        stepSize axis t * (x / stepSize axis t) := Nat.mul_comm _ _
    by_cases hk : x / stepSize axis t ≤ cropCount axis t
    · exact ⟨x / stepSize axis t, hk, by omega, by omega⟩
    · refine ⟨cropCount axis t, le_refl _, ?_, hx⟩
      have h1 : cropCount axis t + 1 ≤ x / stepSize axis t := by omega
      have h2 : (cropCount axis t + 1) * stepSize axis t ≤
          x / stepSize axis t * stepSize axis t :=
        Nat.mul_le_mul_right _ h1
      have h3 : (cropCount axis t + 1) * stepSize axis t =
          cropCount axis t * stepSize axis t + stepSize axis t := by
        rw [add_mul, one_mul]
      omega

/-- Witness for C9 at `axis = 1800`, `t = 1024`, covering the point `x = 500`. -/
theorem c9_witness :
    (0 : ℕ) < 1024 ∧ (1024 : ℕ) < 1800 ∧ stepSize 1800 1024 < 1024 ∧
    (∃ k, k ≤ cropCount 1800 1024 ∧ k * stepSize 1800 1024 ≤ 500 ∧
      500 < k * stepSize 1800 1024 + 1024) :=
  ⟨by decide, by decide, (c9_step_lt_target 1800 1024 (by decide) (by decide)).1,
   (c9_step_lt_target 1800 1024 (by decide) (by decide)).2 500 (by decide)⟩

/-- C10 (implicit): the rounding used for the crop count breaks ties
half-to-even, as `np.rint` does: when the axis-to-target ratio is exactly
`k + 1/2` (that is, `2 * axis = (2*k + 1) * t`) with `k ≥ 1`, the crop count
is the even neighbour of the ratio — `k` when `k` is even, else `k + 1` —
and in particular it is always even. -/
theorem c10_ties_to_even (axis t k : ℕ) (ht : 0 < t) (hk : 1 ≤ k)
    (htie : 2 * axis = (2 * k + 1) * t) :
    cropCount axis t = (if k % 2 = 0 then k else k + 1) ∧
    cropCount axis t % 2 = 0 := by
  have hexp : (2 * k + 1) * t = 2 * (k * t) + t := by ring
  rw [hexp] at htie
  have hge : t ≤ k * t := Nat.le_mul_of_pos_left t hk
  have h2m : 2 * (axis - k * t) = t := by omega
  have hmt : axis - k * t < t := by omega
  have htlt : t < axis := by omega
  have haxis : axis = t * k + (axis - k * t) := by
    have := Nat.mul_comm t k
    omega
  have hdiv : axis / t = k := by
    conv_lhs => rw [haxis]
    rw [Nat.mul_add_div ht, Nat.div_eq_of_lt hmt]
    omega
  have hmod : axis % t = axis - k * t := by
    conv_lhs => rw [haxis]
    rw [Nat.mul_add_mod, Nat.mod_eq_of_lt hmt]
  have hcc := cropCount_eq_rintDiv axis t htlt
  have hrd : rintDiv axis t = if k % 2 = 0 then k else k + 1 := by
    unfold rintDiv
    rw [hmod, hdiv, if_neg (by omega), if_neg (by omega)]
  refine ⟨by rw [hcc, hrd], ?_⟩
  rw [hcc, hrd]
  by_cases hke : k % 2 = 0
  · rw [if_pos hke]; exact hke
  · rw [if_neg hke]; omega

/-- Witness for C10 at the ratios 1.5 (`1536 / 1024`) and 2.5
(`2560 / 1024`), both of which round to crop count 2. -/
theorem c10_witness :
    (0 : ℕ) < 1024 ∧ 2 * 1536 = (2 * 1 + 1) * 1024 ∧ 2 * 2560 = (2 * 2 + 1) * 1024 ∧
    cropCount 1536 1024 = 2 ∧ cropCount 2560 1024 = 2 ∧
    cropCount 1536 1024 % 2 = 0 ∧ cropCount 2560 1024 % 2 = 0 := by
  refine ⟨by decide, by decide, by decide, ?_, ?_, ?_, ?_⟩
  · have h1 := (c10_ties_to_even 1536 1024 1 (by decide) (by decide) (by decide)).1
    simpa using h1
  · have h2 := (c10_ties_to_even 2560 1024 2 (by decide) (by decide) (by decide)).1
    simpa using h2
  · exact (c10_ties_to_even 1536 1024 1 (by decide) (by decide) (by decide)).2
  · exact (c10_ties_to_even 2560 1024 2 (by decide) (by decide) (by decide)).2

end EarthView
